import Mathlib

/-!
Verification of the GenAI conversational task-planning agent.

This file is a shallow embedding, in Lean 4, of the parts of the repository
that the specification's claims are about:

* `src/core/utils.py` — `extract_json` / `_extract_first_valid_json`;
* `src/agent/nodes/recommend.py` — `recommend_tool_node`;
* `src/agent/nodes/executor.py` — `tool_executor_node`;
* `src/agent/routing.py` — `route_after_recommend`;
* `src/agent/nodes/router.py` — `llm_router_node` (classification parsing);
* `src/agent/nodes/planning.py` — `planning_node` (plan parsing);
* `src/agent/hitl.py` — `analyze_user_intent` / `handle_human_feedback`;
* `src/agent/graph.py` — `resume_after_approval` (cancel short-circuit);
* `src/agent/nodes/reflection.py` — the profile merge;
* `src/src/agents/graph.py` — `should_retry` retry controller.

Python's dynamically-typed JSON values are modelled by the inductive type
`JVal`; Python dicts by ordered association lists with dict-style update
(`dictSet`) and lookup (`dictGet`); Python floats by rationals (`ℚ`), which
is exact for every literal appearing in the claims; calls to the external
LLM ("reasoning service") and to tool implementations are abstracted as
explicit parameters of the node functions.  Fallible Python code (a `try:`
block) is modelled by `Option` or by explicit case analysis on the
condition under which the block raises.
-/

/-- A JSON value as produced by Python's `json.loads`.  Python distinguishes
`int` and `float`; both are modelled by `ℚ` (exact for all inputs that
appear in this development).  Python's `NaN`/`Infinity` extensions are not
modelled. -/
inductive JVal where
  | null : JVal
  | bool : Bool → JVal
  | num : ℚ → JVal
  | str : String → JVal
  | arr : List JVal → JVal
  | obj : List (String × JVal) → JVal

mutual

/-- Decidable equality on `JVal` (the derive handler does not support this
nested inductive, so it is spelled out). -/
def JVal.decEq : (a b : JVal) → Decidable (a = b)
  | .null, .null => .isTrue rfl
  | .null, .bool _ => .isFalse (fun h => JVal.noConfusion h)
  | .null, .num _ => .isFalse (fun h => JVal.noConfusion h)
  | .null, .str _ => .isFalse (fun h => JVal.noConfusion h)
  | .null, .arr _ => .isFalse (fun h => JVal.noConfusion h)
  | .null, .obj _ => .isFalse (fun h => JVal.noConfusion h)
  | .bool _, .null => .isFalse (fun h => JVal.noConfusion h)
  | .bool a, .bool b =>
    if h : a = b then .isTrue (by rw [h]) else .isFalse (fun hh => h (JVal.noConfusion hh id))
  | .bool _, .num _ => .isFalse (fun h => JVal.noConfusion h)
  | .bool _, .str _ => .isFalse (fun h => JVal.noConfusion h)
  | .bool _, .arr _ => .isFalse (fun h => JVal.noConfusion h)
  | .bool _, .obj _ => .isFalse (fun h => JVal.noConfusion h)
  | .num _, .null => .isFalse (fun h => JVal.noConfusion h)
  | .num _, .bool _ => .isFalse (fun h => JVal.noConfusion h)
  | .num a, .num b =>
    if h : a = b then .isTrue (by rw [h]) else .isFalse (fun hh => h (JVal.noConfusion hh id))
  | .num _, .str _ => .isFalse (fun h => JVal.noConfusion h)
  | .num _, .arr _ => .isFalse (fun h => JVal.noConfusion h)
  | .num _, .obj _ => .isFalse (fun h => JVal.noConfusion h)
  | .str _, .null => .isFalse (fun h => JVal.noConfusion h)
  | .str _, .bool _ => .isFalse (fun h => JVal.noConfusion h)
  | .str _, .num _ => .isFalse (fun h => JVal.noConfusion h)
  | .str a, .str b =>
    if h : a = b then .isTrue (by rw [h]) else .isFalse (fun hh => h (JVal.noConfusion hh id))
  | .str _, .arr _ => .isFalse (fun h => JVal.noConfusion h)
  | .str _, .obj _ => .isFalse (fun h => JVal.noConfusion h)
  | .arr _, .null => .isFalse (fun h => JVal.noConfusion h)
  | .arr _, .bool _ => .isFalse (fun h => JVal.noConfusion h)
  | .arr _, .num _ => .isFalse (fun h => JVal.noConfusion h)
  | .arr _, .str _ => .isFalse (fun h => JVal.noConfusion h)
  | .arr xs, .arr ys =>
    match JVal.decEqList xs ys with
    | .isTrue h => .isTrue (by rw [h])
    | .isFalse h => .isFalse (fun hh => h (JVal.noConfusion hh id))
  | .arr _, .obj _ => .isFalse (fun h => JVal.noConfusion h)
  | .obj _, .null => .isFalse (fun h => JVal.noConfusion h)
  | .obj _, .bool _ => .isFalse (fun h => JVal.noConfusion h)
  | .obj _, .num _ => .isFalse (fun h => JVal.noConfusion h)
  | .obj _, .str _ => .isFalse (fun h => JVal.noConfusion h)
  | .obj _, .arr _ => .isFalse (fun h => JVal.noConfusion h)
  | .obj xs, .obj ys =>
    match JVal.decEqKV xs ys with
    | .isTrue h => .isTrue (by rw [h])
    | .isFalse h => .isFalse (fun hh => h (JVal.noConfusion hh id))

/-- Decidable equality on lists of `JVal`. -/
def JVal.decEqList : (xs ys : List JVal) → Decidable (xs = ys)
  | [], [] => .isTrue rfl
  | [], _ :: _ => .isFalse (fun h => List.noConfusion h)
  | _ :: _, [] => .isFalse (fun h => List.noConfusion h)
  | x :: xs, y :: ys =>
    match JVal.decEq x y, JVal.decEqList xs ys with
    | .isTrue h1, .isTrue h2 => .isTrue (by rw [h1, h2])
    | .isFalse h1, _ => .isFalse (fun hh => by injection hh with hx hxs; exact h1 hx)
    | _, .isFalse h2 => .isFalse (fun hh => by injection hh with hx hxs; exact h2 hxs)

/-- Decidable equality on string-keyed association lists of `JVal`. -/
def JVal.decEqKV : (xs ys : List (String × JVal)) → Decidable (xs = ys)
  | [], [] => .isTrue rfl
  | [], _ :: _ => .isFalse (fun h => List.noConfusion h)
  | _ :: _, [] => .isFalse (fun h => List.noConfusion h)
  | (k, v) :: xs, (k', v') :: ys =>
    match String.decEq k k', JVal.decEq v v', JVal.decEqKV xs ys with
    | .isTrue h1, .isTrue h2, .isTrue h3 => .isTrue (by rw [h1, h2, h3])
    | .isFalse h1, _, _ =>
      .isFalse (fun hh => by injection hh with hp ht; injection hp with hk hv; exact h1 hk)
    | _, .isFalse h2, _ =>
      .isFalse (fun hh => by injection hh with hp ht; injection hp with hk hv; exact h2 hv)
    | _, _, .isFalse h3 => .isFalse (fun hh => by injection hh with hp ht; exact h3 ht)

end

instance : DecidableEq JVal := JVal.decEq

/-- Python truthiness (`if value:`) of a JSON value. -/
def pyTruthy : JVal → Bool
  | .null => false
  | .bool b => b
  | .num q => q ≠ 0
  | .str s => s ≠ ""
  | .arr xs => ¬ xs.isEmpty
  | .obj kvs => ¬ kvs.isEmpty

/-- Dict lookup, `d.get(k)` on a Python dict modelled as an ordered
association list (first match; keys are unique in dicts built by `dictSet`). -/
def dictGet {α : Type} (kvs : List (String × α)) (k : String) : Option α :=
  (kvs.find? (fun p => p.1 = k)).map (fun p => p.2)

/-- Dict assignment `d[k] = v`: updates the first entry with key `k` in
place, otherwise appends — Python dicts preserve insertion order. -/
def dictSet {α : Type} (kvs : List (String × α)) (k : String) (v : α) : List (String × α) :=
  match kvs with
  | [] => [(k, v)]
  | (k', v') :: rest => if k' = k then (k, v) :: rest else (k', v') :: dictSet rest k v

/-- ASCII whitespace as recognised by Python's `str.strip()` (the Unicode
whitespace Python also strips does not occur in this development). -/
def pyIsSpace (c : Char) : Bool :=
  c = ' ' ∨ c = '\t' ∨ c = '\n' ∨ c = '\r' ∨ c = '\x0b' ∨ c = '\x0c'

/-- Python `str.strip()` on a list of characters. -/
def pyStrip (cs : List Char) : List Char :=
  ((cs.dropWhile pyIsSpace).reverse.dropWhile pyIsSpace).reverse

/-- JSON whitespace accepted between tokens by `json.loads`. -/
def jsonWs (c : Char) : Bool :=
  c = ' ' ∨ c = '\t' ∨ c = '\n' ∨ c = '\r'

/-- Skip JSON whitespace. -/
def skipWs (cs : List Char) : List Char := cs.dropWhile jsonWs

/-- Hexadecimal digit value, for `\uXXXX` escapes. -/
def hexVal (c : Char) : Option Nat :=
  if '0' ≤ c ∧ c ≤ '9' then some (c.toNat - '0'.toNat)
  else if 'a' ≤ c ∧ c ≤ 'f' then some (c.toNat - 'a'.toNat + 10)
  else if 'A' ≤ c ∧ c ≤ 'F' then some (c.toNat - 'A'.toNat + 10)
  else none

/-- Parse the body of a JSON string literal (after the opening quote),
returning the decoded characters and the remaining input.  Surrogate pairs
are not recombined (no input in this development uses `\u` escapes); an
invalid scalar value falls back to `Char.ofNat`'s default. -/
def parseStrBody : Nat → List Char → Option (List Char × List Char)
  | 0, _ => none
  | _, [] => none
  | fuel + 1, c :: rest =>
    if c = '"' then some ([], rest)
    else if c = '\\' then
      match rest with
      | [] => none
      | e :: rest' =>
        let decoded : Option (Char × List Char) :=
          if e = '"' then some ('"', rest')
          else if e = '\\' then some ('\\', rest')
          else if e = '/' then some ('/', rest')
          else if e = 'b' then some ('\x08', rest')
          else if e = 'f' then some ('\x0c', rest')
          else if e = 'n' then some ('\n', rest')
          else if e = 'r' then some ('\r', rest')
          else if e = 't' then some ('\t', rest')
          else if e = 'u' then
            match rest' with
            | h1 :: h2 :: h3 :: h4 :: rest'' =>
              match hexVal h1, hexVal h2, hexVal h3, hexVal h4 with
              | some a, some b, some c', some d =>
                some (Char.ofNat (((a * 16 + b) * 16 + c') * 16 + d), rest'')
              | _, _, _, _ => none
            | _ => none
          else none
        match decoded with
        | some (ch, rest'') =>
          match parseStrBody fuel rest'' with
          | some (cs, rem) => some (ch :: cs, rem)
          | none => none
        | none => none
    else if c.toNat < 0x20 then none
    else
      match parseStrBody fuel rest with
      | some (cs, rem) => some (c :: cs, rem)
      | none => none

/-- Parse a run of decimal digits, returning its value, the number of
digits, and the remaining input. -/
def parseDigits : List Char → Nat × Nat × List Char
  | [] => (0, 0, [])
  | c :: rest =>
    if '0' ≤ c ∧ c ≤ '9' then
      let rec go (acc len : Nat) : List Char → Nat × Nat × List Char
        | [] => (acc, len, [])
        | d :: ds =>
          if '0' ≤ d ∧ d ≤ '9' then go (acc * 10 + (d.toNat - '0'.toNat)) (len + 1) ds
          else (acc, len, d :: ds)
      go (c.toNat - '0'.toNat) 1 rest
    else (0, 0, c :: rest)

/-- Parse a JSON number per RFC 8259 (`json.loads`' grammar): optional minus,
integer part without leading zeros, optional fraction, optional exponent. -/
def parseNumber (cs : List Char) : Option (ℚ × List Char) :=
  let (neg, cs₁) :=
    match cs with
    | '-' :: rest => (true, rest)
    | _ => (false, cs)
  match cs₁ with
  | [] => none
  | c :: _ =>
    if ¬ ('0' ≤ c ∧ c ≤ '9') then none
    else
      let (ip, ilen, cs₂) := parseDigits cs₁
      if ilen = 0 ∨ (ilen > 1 ∧ c = '0') then none
      else
        let (frac, flen, cs₃) :=
          match cs₂ with
          | '.' :: rest =>
            let (fp, fl, r) := parseDigits rest
            if fl = 0 then (0, 0, cs₂) else (fp, fl, r)
          | _ => (0, 0, cs₂)
        if cs₃.length ≠ cs₂.length ∧ flen = 0 then none
        else
          match cs₂ with
          | '.' :: _ =>
            if flen = 0 then none
            else parseNumberExp neg ip frac flen cs₃
          | _ => parseNumberExp neg ip 0 0 cs₂
where
  /-- Optional exponent part and assembly of the rational value. -/
  parseNumberExp (neg : Bool) (ip frac flen : Nat) (cs : List Char) :
      Option (ℚ × List Char) :=
    let base : ℚ := (ip : ℚ) + (frac : ℚ) / ((10 : ℚ) ^ flen)
    match cs with
    | e :: rest =>
      if e = 'e' ∨ e = 'E' then
        let (eneg, rest₁) :=
          match rest with
          | '+' :: r => (false, r)
          | '-' :: r => (true, r)
          | _ => (false, rest)
        let (ev, elen, rest₂) := parseDigits rest₁
        if elen = 0 then none
        else
          let scaled : ℚ := if eneg then base / ((10 : ℚ) ^ ev) else base * ((10 : ℚ) ^ ev)
          some ((if neg then -scaled else scaled), rest₂)
      else some ((if neg then -base else base), cs)
    | [] => some ((if neg then -base else base), [])

mutual

/-- Fuel-indexed JSON value parser (the fuel is an upper bound on recursion
depth; `loads` supplies enough fuel for any input of the given length). -/
def parseVal : Nat → List Char → Option (JVal × List Char)
  | 0, _ => none
  | fuel + 1, cs =>
    match skipWs cs with
    | [] => none
    | c :: rest =>
      if c = '{' then
        match skipWs rest with
        | '}' :: rem => some (.obj [], rem)
        | _ => parseObjMembers fuel rest []
      else if c = '[' then
        match skipWs rest with
        | ']' :: rem => some (.arr [], rem)
        | _ => parseArrElems fuel rest []
      else if c = '"' then
        match parseStrBody (rest.length + 1) rest with
        | some (body, rem) => some (.str (String.mk body), rem)
        | none => none
      else if c = 't' then
        match rest with
        | 'r' :: 'u' :: 'e' :: rem => some (.bool true, rem)
        | _ => none
      else if c = 'f' then
        match rest with
        | 'a' :: 'l' :: 's' :: 'e' :: rem => some (.bool false, rem)
        | _ => none
      else if c = 'n' then
        match rest with
        | 'u' :: 'l' :: 'l' :: rem => some (.null, rem)
        | _ => none
      else
        match parseNumber (c :: rest) with
        | some (q, rem) => some (.num q, rem)
        | none => none

/-- Parse the members of a JSON object (after `{`), accumulating with
dict-update semantics: on duplicate keys `json.loads` keeps the last one. -/
def parseObjMembers : Nat → List Char → List (String × JVal) →
    Option (JVal × List Char)
  | 0, _, _ => none
  | fuel + 1, cs, acc =>
    match skipWs cs with
    | '"' :: rest =>
      match parseStrBody (rest.length + 1) rest with
      | some (key, afterKey) =>
        match skipWs afterKey with
        | ':' :: afterColon =>
          match parseVal fuel afterColon with
          | some (v, afterVal) =>
            let acc' := dictSet acc (String.mk key) v
            match skipWs afterVal with
            | ',' :: next => parseObjMembers fuel next acc'
            | '}' :: rem => some (.obj acc', rem)
            | _ => none
          | none => none
        | _ => none
      | none => none
    | _ => none

/-- Parse the elements of a JSON array (after `[`). -/
def parseArrElems : Nat → List Char → List JVal → Option (JVal × List Char)
  | 0, _, _ => none
  | fuel + 1, cs, acc =>
    match parseVal fuel cs with
    | some (v, afterVal) =>
      match skipWs afterVal with
      | ',' :: next => parseArrElems fuel next (acc ++ [v])
      | ']' :: rem => some (.arr (acc ++ [v]), rem)
      | _ => none
    | none => none

end

/-- Python's `json.loads`: parse a complete JSON document; trailing
non-whitespace is an error ("Extra data"). -/
def loads (s : String) : Option JVal :=
  let cs := s.toList
  match parseVal (2 * cs.length + 2) cs with
  | some (v, rem) => if (skipWs rem).isEmpty then some v else none
  | none => none

/-- Split `cs` around the first occurrence of `pat` (a nonempty token):
returns the text before it and the text after it, or `none` if absent. -/
def splitFirst (pat : List Char) : List Char → Option (List Char × List Char)
  | [] => none
  | c :: rest =>
    if pat.isPrefixOf (c :: rest) then some ([], (c :: rest).drop pat.length)
    else
      match splitFirst pat rest with
      | some (before, after) => some (c :: before, after)
      | none => none

/-- The inner group of the first fenced block opened by `tag` and closed by
three backticks; models `re.search(tag + "\\s*(.*?)\\s*```", text, DOTALL)`:
the leftmost opening fence together with the earliest closing fence after
it, the group stripped of surrounding whitespace. -/
def extractFence (tag : List Char) (cs : List Char) : Option (List Char) :=
  match splitFirst tag cs with
  | none => none
  | some (_, afterTag) =>
    match splitFirst "```".toList afterTag with
    | none => none
    | some (inner, _) => some (pyStrip inner)

/-- The scanning loop of `_extract_first_valid_json` (src/core/utils.py,
lines 48-89): brace/bracket counting with string- and escape-awareness;
at each index reached by the fall-through path with both counters zero, the
prefix is tried with `json.loads` and returned if it parses; otherwise the
original text is returned.  `orig` is the full input, `i` the current
index, `bc`/`kc` the brace/bracket counters, `inStr`/`esc` the string and
escape flags. -/
def efvjGo (orig : List Char) : List Char → Nat → ℤ → ℤ → Bool → Bool → List Char
  | [], _, _, _, _, _ => orig
  | c :: rest, i, bc, kc, inStr, esc =>
    if esc then efvjGo orig rest (i + 1) bc kc inStr false
    else if c = '\\' then efvjGo orig rest (i + 1) bc kc inStr true
    else if c = '"' then efvjGo orig rest (i + 1) bc kc (¬ inStr) false
    else if inStr then efvjGo orig rest (i + 1) bc kc inStr false
    else
      let bc' : ℤ := if c = '{' then bc + 1 else if c = '}' then bc - 1 else bc
      let kc' : ℤ := if c = '[' then kc + 1 else if c = ']' then kc - 1 else kc
      if bc' = 0 ∧ kc' = 0 ∧ i > 0 then
        let candidate := orig.take (i + 1)
        if (loads (String.mk candidate)).isSome then candidate
        else efvjGo orig rest (i + 1) bc' kc' inStr false
      else efvjGo orig rest (i + 1) bc' kc' inStr false

/-- `_extract_first_valid_json` (src/core/utils.py): extract the first
complete, actually-parseable JSON object/array prefix of `cs`; if `cs` does
not start with a brace/bracket, or no complete parseable prefix exists,
return the input unchanged. -/
def extractFirstValidJson (cs : List Char) : List Char :=
  if ¬ (cs.head? = some '{' ∨ cs.head? = some '[') then cs
  else efvjGo cs cs 0 0 0 false false

/-- `extract_json` (src/core/utils.py, lines 8-38): safely extract JSON text
from an LLM response.  Pattern 1: a ```json fenced block; pattern 2: a bare
``` fenced block; pattern 3: text starting with `{`/`[`; pattern 4: the
earliest embedded `{` or `[`; otherwise the (stripped) text itself. -/
def extract_json (text : String) : String :=
  let t := pyStrip text.toList
  match extractFence "```json".toList t with
  | some inner => String.mk (pyStrip inner)
  | none =>
  match extractFence "```".toList t with
  | some inner => String.mk (pyStrip inner)
  | none =>
  if t.head? = some '{' ∨ t.head? = some '[' then String.mk (extractFirstValidJson t)
  else
    match t.findIdx? (fun c => c = '{'), t.findIdx? (fun c => c = '[') with
    | some oi, some ai =>
      if oi < ai then String.mk (extractFirstValidJson (t.drop oi))
      else String.mk (extractFirstValidJson (t.drop ai))
    | some oi, none => String.mk (extractFirstValidJson (t.drop oi))
    | none, some ai => String.mk (extractFirstValidJson (t.drop ai))
    | none, none => String.mk t

/-- Whether `json.loads(extract_json(content))` succeeds and yields a JSON
object (a Python `dict`) — the condition under which the classification
`try:` block in `llm_router_node` reaches `result.get` without raising. -/
def parsesToObj (content : String) : Bool :=
  match loads (extract_json content) with
  | some (.obj _) => true
  | _ => false

/-- The `is_complex` value computed by `llm_router_node`
(src/agent/nodes/router.py, lines 43-51) from the reasoning-service
response `content`: on a successful parse to a dict, `result.get
("is_complex", True)`; on any exception (parse failure, or `.get` on a
non-dict), the fallback `True`. -/
def llm_router_is_complex (content : String) : JVal :=
  match loads (extract_json content) with
  | some (.obj kvs) => (dictGet kvs "is_complex").getD (.bool true)
  | _ => .bool true

/-- The `sub_tasks` list computed by `planning_node`
(src/agent/nodes/planning.py, lines 38-57) from the reasoning-service
response `content`: on success, `[t.get("description", "") for t in
plan_data.get("subtasks", [])]`; on any exception inside the `try:` block
(parse failure, `.get` on a non-dict, iterating a non-iterable `subtasks`,
or `.get` on a non-dict element), the fallback `[user_query]`.  A nonempty
string iterates over its characters and a nonempty dict over its keys, both
of which raise at `t.get`; their empty counterparts iterate zero times and
yield an empty plan. -/
def planning_sub_tasks (user_query : String) (content : String) : List JVal :=
  match loads (extract_json content) with
  | some (.obj kvs) =>
    match (dictGet kvs "subtasks").getD (.arr []) with
    | .arr ts =>
      if ts.all (fun t => match t with | .obj _ => true | _ => false) then
        ts.map (fun t =>
          match t with
          | .obj tkvs => (dictGet tkvs "description").getD (.str "")
          | _ => .str "")
      else [.str user_query]
    | .str s => if s = "" then [] else [.str user_query]
    | .obj okvs => if okvs.isEmpty then [] else [.str user_query]
    | _ => [.str user_query]
  | _ => [.str user_query]

/-- The condition under which `planning_node`'s `try:` block raises and the
`except` fallback `sub_tasks = [user_query]` is taken. -/
def planning_parse_fails (content : String) : Bool :=
  match loads (extract_json content) with
  | some (.obj kvs) =>
    match (dictGet kvs "subtasks").getD (.arr []) with
    | .arr ts => ¬ ts.all (fun t => match t with | .obj _ => true | _ => false)
    | .str s => s ≠ ""
    | .obj okvs => ¬ okvs.isEmpty
    | _ => true
  | _ => true

/-- `MAX_RETRIES` (src/src/agents/state.py, line 92). -/
def MAX_RETRIES : Nat := 2

/-- A tool candidate as consulted by `should_retry`: only
`candidate.get("final_score", 0.0)` is read, so only that field is
modelled; `none` models an absent key (default `0.0`).  Scores are Python
floats, modelled exactly as rationals. -/
structure Candidate where
  final_score : Option ℚ
deriving DecidableEq

/-- `top.get("final_score", 0.0)` for the top candidate of a task. -/
def topScore (c : Candidate) : ℚ := c.final_score.getD 0

/-- One iteration of the statistics loop of `should_retry`
(src/src/agents/graph.py, lines 56-66): accumulate the top-candidate score
total, the number of tasks with at least one candidate, and the number of
those whose top score is below `0.6`. -/
def retryStep (acc : ℚ × Nat × Nat) (p : String × List Candidate) : ℚ × Nat × Nat :=
  match p.2 with
  | [] => acc
  | top :: _ =>
    (acc.1 + topScore top, acc.2.1 + 1,
     acc.2.2 + (if topScore top < 3 / 5 then 1 else 0))

/-- The statistics loop of `should_retry` (src/src/agents/graph.py, lines
51-66). -/
def retryStats (evaluation_results : List (String × List Candidate)) : ℚ × Nat × Nat :=
  evaluation_results.foldl retryStep (0, 0, 0)

/-- `should_retry` (src/src/agents/graph.py, lines 28-87): decide between
re-planning ("retry") and proceeding ("continue") from the retry counter
and the per-subtask evaluation results. -/
def should_retry (retry_count : Nat) (evaluation_results : List (String × List Candidate)) :
    String :=
  if retry_count ≥ MAX_RETRIES then "continue"
  else if evaluation_results.isEmpty then "continue"
  else
    let stats := retryStats evaluation_results
    let task_count := stats.2.1
    if task_count = 0 then "continue"
    else
      let avg := stats.1 / (task_count : ℚ)
      let low_score_ratio := (stats.2.2 : ℚ) / (task_count : ℚ)
      if avg < 13 / 20 ∧ low_score_ratio ≥ 1 / 2 then "retry" else "continue"

/-- Spec-side reading of the retry condition: the sub-tasks that have a top
candidate at all. -/
def evaluatedTasks (evaluation_results : List (String × List Candidate)) :
    List (String × List Candidate) :=
  evaluation_results.filter (fun p => ¬ p.2.isEmpty)

/-- Spec-side reading: sum of the top-candidate final scores. -/
def sumTopScores (evaluation_results : List (String × List Candidate)) : ℚ :=
  (evaluatedTasks evaluation_results).foldr
    (fun p acc =>
      match p.2 with
      | top :: _ => topScore top + acc
      | [] => acc) 0

/-- Spec-side reading: how many sub-tasks have a top final score below 0.6. -/
def lowScoreCount (evaluation_results : List (String × List Candidate)) : Nat :=
  (evaluatedTasks evaluation_results).countP
    (fun p =>
      match p.2 with
      | top :: _ => decide (topScore top < 3 / 5)
      | [] => false)

/-- `MAX_TOOL_CALLS_PER_TASK` (src/core/config.py, line 14). -/
def MAX_TOOL_CALLS_PER_TASK : Nat := 3

/-- A pending tool call as produced by `recommend_tool_node` and consumed by
`tool_executor_node`.  In the source the call is serialised with
`json.dumps` into `state["tool_result"]` and re-parsed with `json.loads`;
the round trip is exact, so the structured form is stored directly. -/
structure ToolCall where
  id : String
  name : String
  args : JVal
deriving DecidableEq

/-- A reasoning-service response as consumed by `recommend_tool_node`:
its text content and its (possibly empty) list of requested tool calls. -/
structure LLMResponse where
  content : String
  tool_calls : List ToolCall
deriving DecidableEq

/-- The fields of `AgentState` (src/agent/state.py) read or written by the
nodes modelled here.  `messages` is tracked as a length only (the
`add_messages` reducer appends).  Fields of the Python state that none of
the modelled nodes consult (`user_id`, `user_query`, `user_profile`,
`plan_analysis`, `is_complex_task`, the simple-path fields, timestamps) are
omitted. -/
structure AgentState where
  sub_tasks : List JVal := []
  tool_recommendations : List (String × String) := []
  tool_result : Option ToolCall := none
  current_task_idx : Nat := 0
  tool_call_count : Nat := 0
  retrieved_docs : List JVal := []
  user_feedback : Option JVal := none
  final_guide : Option String := none
  error : Option String := none
  task_completed : Bool := false
  messages : Nat := 0
deriving DecidableEq

/-- A partial state update as returned by a LangGraph node: a dict holding
only the keys the node wants to set.  `some x` models a present key with
value `x`; `messagesAdded` counts appended messages. -/
structure Update where
  sub_tasks : Option (List JVal) := none
  tool_recommendations : Option (List (String × String)) := none
  tool_result : Option (Option ToolCall) := none
  current_task_idx : Option Nat := none
  tool_call_count : Option Nat := none
  retrieved_docs : Option (List JVal) := none
  user_feedback : Option (Option JVal) := none
  final_guide : Option (Option String) := none
  error : Option (Option String) := none
  task_completed : Option Bool := none
  messagesAdded : Nat := 0
deriving DecidableEq

/-- LangGraph's state merge: every present key replaces the field (the
default reducer), and `messages` appends (the `add_messages` reducer). -/
def applyUpdate (s : AgentState) (u : Update) : AgentState :=
  { sub_tasks := u.sub_tasks.getD s.sub_tasks
    tool_recommendations := u.tool_recommendations.getD s.tool_recommendations
    tool_result := u.tool_result.getD s.tool_result
    current_task_idx := u.current_task_idx.getD s.current_task_idx
    tool_call_count := u.tool_call_count.getD s.tool_call_count
    retrieved_docs := u.retrieved_docs.getD s.retrieved_docs
    user_feedback := u.user_feedback.getD s.user_feedback
    final_guide := u.final_guide.getD s.final_guide
    error := u.error.getD s.error
    task_completed := u.task_completed.getD s.task_completed
    messages := s.messages + u.messagesAdded }

/-- The generic fallback recommendation recorded when the per-task tool-call
budget is exhausted (src/agent/nodes/recommend.py, line 45). -/
def recommend_fallback_message : String := "도구 검색 결과를 바탕으로 직접 확인이 필요합니다."

/-- `f"task_{current_idx + 1}"`. -/
def taskId (idx : Nat) : String := "task_" ++ toString (idx + 1)

/-- `recommend_tool_node` (src/agent/nodes/recommend.py, lines 18-101).
The reasoning-service invocation is abstracted as the parameter `resp`. -/
def recommend_tool_node (resp : LLMResponse) (s : AgentState) : Update :=
  if s.current_task_idx ≥ s.sub_tasks.length then
    { tool_result := some none }
  else if s.tool_call_count ≥ MAX_TOOL_CALLS_PER_TASK then
    { tool_result := some none
      tool_recommendations :=
        some (dictSet s.tool_recommendations (taskId s.current_task_idx)
          recommend_fallback_message)
      current_task_idx := some (s.current_task_idx + 1)
      tool_call_count := some 0 }
  else
    match resp.tool_calls with
    | tc :: _ =>
      { tool_result := some (some tc)
        tool_call_count := some (s.tool_call_count + 1)
        messagesAdded := 1 }
    | [] =>
      { tool_result := some none
        tool_recommendations :=
          some (dictSet s.tool_recommendations (taskId s.current_task_idx) resp.content)
        current_task_idx := some (s.current_task_idx + 1)
        tool_call_count := some 0
        messagesAdded := 1 }

/-- Whether Python's `f"{x:.3f}"`/`f"{x:.4f}"` succeeds on
`d.get(key, 0)`: it does for an absent key (int `0`), a number, or a bool
(a subclass of int), and raises otherwise. -/
def fmtSafe : Option JVal → Bool
  | none => true
  | some (.num _) => true
  | some (.bool _) => true
  | _ => false

/-- Whether the logging block for a truthy `recommended_tool`
(src/agent/nodes/executor.py, lines 59-70) runs without raising: the value
must be a dict, its `scores` (default `{}`) must be a dict with
format-safe `json_score`/`pdf_score`/`final_score`, and a truthy
`candidates` must be a list whose first three entries are dicts with
format-safe `final_score`.  A raise here is swallowed by the enclosing
`except: pass`, but skips the `should_fallback` check that would have
completed the task. -/
def printBlockSafe (recommended candidates : JVal) : Bool :=
  match recommended with
  | .obj rkvs =>
    (match (dictGet rkvs "scores").getD (.obj []) with
     | .obj skvs =>
       fmtSafe (dictGet skvs "json_score") && fmtSafe (dictGet skvs "pdf_score") &&
         fmtSafe (dictGet skvs "final_score")
     | _ => false) &&
    (if pyTruthy candidates then
       match candidates with
       | .arr cs =>
         (cs.take 3).all (fun c =>
           match c with
           | .obj ckvs => fmtSafe (dictGet ckvs "final_score")
           | _ => false)
       | _ => false
     else true)
  | _ => false

/-- The observation-parsing block of `tool_executor_node`
(src/agent/nodes/executor.py, lines 44-97), for a `retrieve_docs` /
`google_search_tool` observation: returns the updated `retrieved_docs` and
the `task_completed` flag.  Any exception inside the block (including a
formatting error while logging scores) is swallowed by `except: pass`,
leaving whatever mutation of `retrieved_docs` already happened and
`task_completed` at `False`.  In the `google_search_tool` branch the
logging loop runs after the `extend`, and the branch never sets
`task_completed`, so a raise there does not change the outcome. -/
def observationUpdate (docs0 : List JVal) (obs : String) : List JVal × Bool :=
  match loads obs with
  | some (.obj kvs) =>
    if (dictGet kvs "recommended_tool").isSome then
      let recommended := (dictGet kvs "recommended_tool").getD .null
      let candidates := (dictGet kvs "candidates").getD (.arr [])
      if pyTruthy recommended then
        let docs1 := docs0 ++ [recommended]
        if printBlockSafe recommended candidates then
          let sf := (dictGet kvs "should_fallback").getD (.bool false)
          (docs1, ¬ pyTruthy sf)
        else (docs1, false)
      else
        let sf := (dictGet kvs "should_fallback").getD (.bool false)
        (docs0, ¬ pyTruthy sf)
    else
      match (dictGet kvs "results").getD (.arr []) with
      | .arr xs => (docs0 ++ xs, false)
      | _ => (docs0, false)
  | _ => (docs0, false)

/-- `tool_executor_node` (src/agent/nodes/executor.py, lines 13-121).  The
tool dispatch `execute_tool` is abstracted as `execTool`; `.error e`
models a raised exception (caught by the outer `except`, which reports the
error and clears the pending call). -/
def tool_executor_node (execTool : String → JVal → Except String String)
    (s : AgentState) : Update :=
  match s.tool_result with
  | none => {}
  | some tc =>
    match execTool tc.name tc.args with
    | .error e => { tool_result := some none, error := some (some e), messagesAdded := 1 }
    | .ok observation =>
      let parsed :=
        if tc.name = "retrieve_docs" ∨ tc.name = "google_search_tool" then
          observationUpdate s.retrieved_docs observation
        else (s.retrieved_docs, false)
      if parsed.2 then
        { retrieved_docs := some parsed.1
          tool_result := some none
          current_task_idx := some (s.current_task_idx + 1)
          tool_call_count := some 0
          messagesAdded := 1 }
      else
        { retrieved_docs := some parsed.1
          tool_result := some none
          messagesAdded := 1 }

/-- `route_after_recommend` (src/agent/routing.py, lines 26-42). -/
def route_after_recommend (s : AgentState) : String :=
  match s.tool_result with
  | some _ => "tool_executor"
  | none =>
    if s.current_task_idx < s.sub_tasks.length then "recommend_tool_node"
    else "guide_generation_node"

/-- One round of the ReAct loop as wired in `create_agent_graph`
(src/agent/graph.py): `recommend_tool_node`, then — exactly when the
recommendation left a pending tool call, i.e. when `route_after_recommend`
says `tool_executor` — `tool_executor_node`, which loops back. -/
def roundStep (resp : LLMResponse) (execTool : String → JVal → Except String String)
    (s : AgentState) : AgentState :=
  let s1 := applyUpdate s (recommend_tool_node resp s)
  match s1.tool_result with
  | some _ => applyUpdate s1 (tool_executor_node execTool s1)
  | none => s1

/-- `n` rounds of the ReAct loop, the reasoning service answering round `i`
with `resps i`. -/
def runRounds (resps : Nat → LLMResponse)
    (execTool : String → JVal → Except String String) :
    Nat → AgentState → AgentState
  | 0, s => s
  | n + 1, s => runRounds (fun i => resps (i + 1)) execTool n (roundStep (resps 0) execTool s)

/-- Whether the round starting from `s` issues a tool call (the
recommendation node returns a pending `tool_result`). -/
def roundCalls (resp : LLMResponse) (s : AgentState) : Nat :=
  match (recommend_tool_node resp s).tool_result with
  | some (some _) => 1
  | _ => 0

/-- Number of tool calls issued during `n` rounds of the loop from `s`. -/
def callsCount (resps : Nat → LLMResponse)
    (execTool : String → JVal → Except String String) :
    Nat → AgentState → Nat
  | 0, _ => 0
  | n + 1, s =>
    roundCalls (resps 0) s +
      callsCount (fun i => resps (i + 1)) execTool n (roundStep (resps 0) execTool s)

/-- States reachable inside the ReAct section of the complex path: the loop
is entered (from `planning_node` or from a `modify` replan) with
`current_task_idx = 0` and no pending tool call, and evolves by the two
loop nodes, each fed arbitrary reasoning-service / tool behaviour. -/
inductive LoopReachable : AgentState → Prop where
  | entry (s : AgentState) : s.current_task_idx = 0 → s.tool_result = none → LoopReachable s
  | recommend (s : AgentState) (resp : LLMResponse) : LoopReachable s →
      LoopReachable (applyUpdate s (recommend_tool_node resp s))
  | exec (s : AgentState) (execTool : String → JVal → Except String String) :
      LoopReachable s → LoopReachable (applyUpdate s (tool_executor_node execTool s))

/-- `analyze_user_intent` (src/agent/hitl.py, lines 18-43), as a function of
the reasoning-service response `content`: on a successful parse to a dict,
`(result.get("intent", "approve"), result.get("feedback", ""))`; on any
exception, `("approve", "")`. -/
def analyze_user_intent (content : String) : JVal × JVal :=
  match loads (extract_json content) with
  | some (.obj kvs) =>
    ((dictGet kvs "intent").getD (.str "approve"),
     (dictGet kvs "feedback").getD (.str ""))
  | _ => (.str "approve", .str "")

/-- The cancellation message recorded on a `cancel` intent
(src/agent/hitl.py, line 103). -/
def cancellation_message : String := "작업이 취소되었습니다. 다른 질문이 있으시면 말씀해주세요."

/-- The error marker recorded on a `cancel` intent (src/agent/hitl.py,
line 104): the Korean string "사용자 취소" ("user cancelled"). -/
def user_cancel_error : String := "사용자 취소"

/-- `handle_human_feedback` (src/agent/hitl.py, lines 80-123).  The two
reasoning-service calls are abstracted: `intentContent` is the raw response
interpreted by `analyze_user_intent`, and `modifiedTasks` is the revised
sub-task list `modify_subtasks(sub_tasks, feedback)` would return. -/
def handle_human_feedback (_s : AgentState) (intentContent : String)
    (modifiedTasks : List JVal) : Update :=
  let intent := analyze_user_intent intentContent
  let action := intent.1
  let feedback := intent.2
  if action = .str "cancel" then
    { final_guide := some (some cancellation_message)
      error := some (some user_cancel_error) }
  else if action = .str "modify" then
    { sub_tasks := some modifiedTasks
      user_feedback := some (some feedback)
      current_task_idx := some 0
      tool_recommendations := some []
      task_completed := some false
      messagesAdded := 1 }
  else
    { user_feedback := some none, messagesAdded := 1 }

/-- The cancel short-circuit of `resume_after_approval` (src/agent/graph.py,
lines 209-211): when the feedback update carries
`error == "사용자 취소"`, the function returns at once — the graph is
neither updated nor resumed, so no further step runs. -/
def resume_terminates_early (u : Update) : Bool :=
  u.error = some (some user_cancel_error)

/-- Deduplication keeping first occurrences.  Models Python's
`list(set(old + new))` in the profile merge: CPython leaves the order of a
set's elements unspecified, so a canonical order is chosen; every property
proved or refuted about the merge below is driven by membership and
multiplicity, not by the order of the deduplicated result. -/
def dedupFO : List JVal → List JVal
  | [] => []
  | x :: xs => x :: (dedupFO xs).filter (fun y => y ≠ x)

/-- One iteration of the profile-merge loop of `reflection_node`
(src/agent/nodes/reflection.py, lines 54-59): for `key, value` in the
extracted preferences, if both the new value and the current value are
lists, store their deduplicated union; otherwise overwrite only if the new
value is truthy. -/
def mergeStep (merged : List (String × JVal)) (kv : String × JVal) :
    List (String × JVal) :=
  match kv.2, dictGet merged kv.1 with
  | .arr new, some (.arr old) => dictSet merged kv.1 (.arr (dedupFO (old ++ new)))
  | v, _ => if pyTruthy v then dictSet merged kv.1 v else merged

/-- The profile merge of `reflection_node` (src/agent/nodes/reflection.py,
lines 52-60): fold the extracted preference delta into a copy of the
existing profile.  The same loop appears verbatim in
`MemoryManager.extract_preferences` (src/core/memory.py, lines 346-353). -/
def mergeProfile (profile delta : List (String × JVal)) : List (String × JVal) :=
  delta.foldl mergeStep profile

/-! ## Theorems -/

/-- C3: `extract_json` applied to `"Here is the plan:\n```json\n{"a":1}\n```\nThanks"`
returns exactly `{"a":1}`, and applied to `"{"a": {"b": 1}} trailing junk"`
returns exactly `{"a": {"b": 1}}`: it locates the first complete top-level
JSON object with brace/bracket/string-and-escape-aware scanning and
discards the trailing text. -/
theorem c3_extract_json_first_valid_json :
    extract_json "Here is the plan:\n```json\n\x7b\"a\":1\x7d\n```\nThanks" = "\x7b\"a\":1\x7d" ∧
    extract_json "\x7b\"a\": \x7b\"b\": 1\x7d\x7d trailing junk" = "\x7b\"a\": \x7b\"b\": 1\x7d\x7d" := by
  constructor
  · decide
  · decide

/-- C5: whenever the classification response cannot be parsed into a JSON
object, `llm_router_node` sets `is_complex_task` to `True` — a parse
failure never routes to the simple path. -/
theorem c5_router_parse_failure_defaults_complex (content : String)
    (h : parsesToObj content = false) :
    llm_router_is_complex content = .bool true := by
  unfold parsesToObj at h
  unfold llm_router_is_complex
  split
  · next kvs heq => rw [heq] at h; simp at h
  · rfl

/-- Witness for C5 at the concrete unparseable response `"not json"`. -/
theorem c5_router_parse_failure_witness :
    parsesToObj "not json" = false ∧ llm_router_is_complex "not json" = .bool true :=
  ⟨by decide, c5_router_parse_failure_defaults_complex "not json" (by decide)⟩

/-- C8 counterexample: the response `{"analysis": "a"}` parses to a JSON
object but not to the expected plan shape (it has no `subtasks`), yet
`planning_node` produces the **empty** plan, not the claimed single
sub-task wrapping the raw query. -/
theorem c8_counterexample_object_without_subtasks :
    loads (extract_json "\x7b\"analysis\": \"a\"\x7d") = some (.obj [("analysis", .str "a")]) ∧
    planning_sub_tasks "쇼츠 영상 제작" "\x7b\"analysis\": \"a\"\x7d" = [] ∧
    planning_sub_tasks "쇼츠 영상 제작" "\x7b\"analysis\": \"a\"\x7d" ≠ [.str "쇼츠 영상 제작"] := by
  refine ⟨by decide, by decide, by decide⟩

/-- C8 (amended): the single-sub-task fallback `[user_query]` is produced
exactly when the `try:` block of `planning_node` raises — the content does
not parse, parses to a non-object, or its `subtasks` entry raises during
iteration (a non-iterable, a nonempty string or dict, or a list with a
non-dict element).  A parseable object whose `subtasks` is absent or empty
instead yields an empty plan, so it never raises either way. -/
theorem c8_planning_fallback_on_parse_failure (user_query content : String)
    (h : planning_parse_fails content = true) :
    planning_sub_tasks user_query content = [.str user_query] := by
  unfold planning_parse_fails at h
  unfold planning_sub_tasks
  cases hl : loads (extract_json content) with
  | none => simp only [hl]
  | some v =>
    cases v with
    | null => simp only [hl]
    | bool b => simp only [hl]
    | num q => simp only [hl]
    | str s => simp only [hl]
    | arr xs => simp only [hl]
    | obj kvs =>
      simp only [hl] at h ⊢
      cases hv : (dictGet kvs "subtasks").getD (.arr []) with
      | null => simp only [hv]
      | bool b => simp only [hv]
      | num q => simp only [hv]
      | str s =>
        simp only [hv] at h ⊢
        rw [if_neg (by simpa using h)]
      | arr ts =>
        simp only [hv] at h ⊢
        rw [if_neg (by simpa using h)]
      | obj okvs =>
        simp only [hv] at h ⊢
        rw [if_neg (by simpa using h)]

/-- Witness for C8 (amended) at a concrete unparseable planning response. -/
theorem c8_planning_fallback_witness :
    planning_parse_fails "죄송합니다, 계획을 세울 수 없습니다." = true ∧
    planning_sub_tasks "미스테리 쇼츠 제작" "죄송합니다, 계획을 세울 수 없습니다." =
      [.str "미스테리 쇼츠 제작"] :=
  ⟨by decide,
   c8_planning_fallback_on_parse_failure "미스테리 쇼츠 제작" "죄송합니다, 계획을 세울 수 없습니다."
     (by decide)⟩

/-- C6: when the interpreted review intent is `modify`,
`handle_human_feedback` replaces `sub_tasks` with the revised list built
from the current plan and the feedback, resets `current_task_idx` to `0`,
and clears `tool_recommendations` to the empty mapping. -/
theorem c6_modify_resets_plan_cursor (s : AgentState) (intentContent : String)
    (modifiedTasks : List JVal)
    (h : (analyze_user_intent intentContent).1 = .str "modify") :
    (handle_human_feedback s intentContent modifiedTasks).sub_tasks = some modifiedTasks ∧
    (handle_human_feedback s intentContent modifiedTasks).current_task_idx = some 0 ∧
    (handle_human_feedback s intentContent modifiedTasks).tool_recommendations = some [] := by
  refine ⟨?_, ?_, ?_⟩ <;> simp [handle_human_feedback, h]

/-- Witness for C6 at a concrete `modify` response. -/
theorem c6_modify_witness :
    (analyze_user_intent "\x7b\"intent\": \"modify\", \"feedback\": \"2번 빼줘\"\x7d").1 =
      .str "modify" ∧
    (handle_human_feedback { sub_tasks := [.str "a", .str "b"], current_task_idx := 1 }
        "\x7b\"intent\": \"modify\", \"feedback\": \"2번 빼줘\"\x7d" [.str "a"]).sub_tasks =
      some [.str "a"] ∧
    (handle_human_feedback { sub_tasks := [.str "a", .str "b"], current_task_idx := 1 }
        "\x7b\"intent\": \"modify\", \"feedback\": \"2번 빼줘\"\x7d" [.str "a"]).current_task_idx =
      some 0 ∧
    (handle_human_feedback { sub_tasks := [.str "a", .str "b"], current_task_idx := 1 }
        "\x7b\"intent\": \"modify\", \"feedback\": \"2번 빼줘\"\x7d" [.str "a"]).tool_recommendations =
      some [] := by
  have h :=
    c6_modify_resets_plan_cursor { sub_tasks := [.str "a", .str "b"], current_task_idx := 1 }
      "\x7b\"intent\": \"modify\", \"feedback\": \"2번 빼줘\"\x7d" [.str "a"] (by decide)
  exact ⟨by decide, h.1, h.2.1, h.2.2⟩

/-- C7 counterexample: on a `cancel` intent, the error recorded by
`handle_human_feedback` is the Korean marker `"사용자 취소"`, not the
literal `"user_cancelled"` the claim states. -/
theorem c7_counterexample_error_marker :
    (analyze_user_intent "\x7b\"intent\": \"cancel\"\x7d").1 = .str "cancel" ∧
    (handle_human_feedback {} "\x7b\"intent\": \"cancel\"\x7d" []).error =
      some (some "사용자 취소") ∧
    (handle_human_feedback {} "\x7b\"intent\": \"cancel\"\x7d" []).error ≠
      some (some "user_cancelled") := by
  refine ⟨by decide, by decide, by decide⟩

/-- C7 (amended): when the interpreted review intent is `cancel`,
`handle_human_feedback` sets `error` to the cancellation marker
`"사용자 취소"` ("user cancelled" in Korean — not the ASCII
`"user_cancelled"` of the claim) and `final_guide` to a non-empty
cancellation message, and `resume_after_approval` then returns immediately
without updating or resuming the graph, so no further step runs. -/
theorem c7_cancel_terminates (s : AgentState) (intentContent : String)
    (modifiedTasks : List JVal)
    (h : (analyze_user_intent intentContent).1 = .str "cancel") :
    (handle_human_feedback s intentContent modifiedTasks).error =
      some (some user_cancel_error) ∧
    (handle_human_feedback s intentContent modifiedTasks).final_guide =
      some (some cancellation_message) ∧
    cancellation_message ≠ "" ∧
    resume_terminates_early (handle_human_feedback s intentContent modifiedTasks) = true := by
  refine ⟨?_, ?_, by decide, ?_⟩ <;> simp [handle_human_feedback, resume_terminates_early, h]

/-- Witness for C7 (amended) at a concrete `cancel` response. -/
theorem c7_cancel_witness :
    (analyze_user_intent "\x7b\"intent\": \"cancel\", \"feedback\": \"취소해\"\x7d").1 =
      .str "cancel" ∧
    (handle_human_feedback { sub_tasks := [.str "a"] }
        "\x7b\"intent\": \"cancel\", \"feedback\": \"취소해\"\x7d" []).error =
      some (some user_cancel_error) ∧
    resume_terminates_early
      (handle_human_feedback { sub_tasks := [.str "a"] }
        "\x7b\"intent\": \"cancel\", \"feedback\": \"취소해\"\x7d" []) = true := by
  have h :=
    c7_cancel_terminates { sub_tasks := [.str "a"] }
      "\x7b\"intent\": \"cancel\", \"feedback\": \"취소해\"\x7d" [] (by decide)
  exact ⟨by decide, h.1, h.2.2.2⟩

/-- C10 counterexample: a `retrieve_docs` observation that parses as JSON
with a `recommended_tool` entry and `should_fallback == false`, but whose
`scores.json_score` is a string: the score-logging f-string raises, the
`except: pass` swallows it, and the sub-task is **not** completed — the
update carries no `current_task_idx`, refuting the claim as stated (the
entry is still appended to `retrieved_docs`). -/
theorem c10_counterexample_logging_exception :
    loads "\x7b\"recommended_tool\": \x7b\"scores\": \x7b\"json_score\": \"high\"\x7d\x7d, \"should_fallback\": false\x7d" =
      some (.obj [("recommended_tool", .obj [("scores", .obj [("json_score", .str "high")])]),
                  ("should_fallback", .bool false)]) ∧
    (tool_executor_node
        (fun _ _ => .ok "\x7b\"recommended_tool\": \x7b\"scores\": \x7b\"json_score\": \"high\"\x7d\x7d, \"should_fallback\": false\x7d")
        { sub_tasks := [.str "t1"], tool_result := some ⟨"c1", "retrieve_docs", .obj []⟩,
          tool_call_count := 1 }).current_task_idx = none ∧
    (tool_executor_node
        (fun _ _ => .ok "\x7b\"recommended_tool\": \x7b\"scores\": \x7b\"json_score\": \"high\"\x7d\x7d, \"should_fallback\": false\x7d")
        { sub_tasks := [.str "t1"], tool_result := some ⟨"c1", "retrieve_docs", .obj []⟩,
          tool_call_count := 1 }).retrieved_docs =
      some [.obj [("scores", .obj [("json_score", .str "high")])]] := by
  refine ⟨by decide, by decide, by decide⟩

/-- The observation-parsing block completes the task when the observation
parses to a dict with a `recommended_tool` key, `should_fallback` is
`false`, and the score logging does not raise (the recommended value is
falsy, or its logged fields are format-safe). -/
theorem observationUpdate_completes (docs0 : List JVal) (obs : String)
    (kvs : List (String × JVal))
    (hobs : loads obs = some (.obj kvs))
    (hrec : (dictGet kvs "recommended_tool").isSome = true)
    (hsf : dictGet kvs "should_fallback" = some (.bool false))
    (hsafe : pyTruthy ((dictGet kvs "recommended_tool").getD .null) = false ∨
      printBlockSafe ((dictGet kvs "recommended_tool").getD .null)
        ((dictGet kvs "candidates").getD (.arr [])) = true) :
    (observationUpdate docs0 obs).2 = true := by
  unfold observationUpdate
  simp only [hobs, hrec, if_pos, hsf]
  rcases hsafe with hs | hs
  · rw [if_neg (by simp [hs])]; rfl
  · by_cases ht : pyTruthy ((dictGet kvs "recommended_tool").getD .null) = true
    · rw [if_pos ht, if_pos hs]; rfl
    · rw [if_neg ht]; rfl

/-- C10 (amended): when `tool_executor_node` executes a `retrieve_docs`
call whose observation parses as JSON with a `recommended_tool` entry and
`should_fallback == false`, **and** the recommended-tool logging does not
raise (the value is falsy, or its `scores`/`candidates` fields are
format-safe — otherwise the `except: pass` swallows the error and the task
is not completed), the executor advances `current_task_idx` by 1 and
resets `tool_call_count` to 0, while `tool_recommendations` is left
unchanged — the sub-task completes with no recommendation entry recorded. -/
theorem c10_executor_completes_without_recommendation (s : AgentState)
    (execTool : String → JVal → Except String String) (tc : ToolCall) (obs : String)
    (kvs : List (String × JVal))
    (hres : s.tool_result = some tc)
    (hname : tc.name = "retrieve_docs")
    (hexec : execTool tc.name tc.args = .ok obs)
    (hobs : loads obs = some (.obj kvs))
    (hrec : (dictGet kvs "recommended_tool").isSome = true)
    (hsf : dictGet kvs "should_fallback" = some (.bool false))
    (hsafe : pyTruthy ((dictGet kvs "recommended_tool").getD .null) = false ∨
      printBlockSafe ((dictGet kvs "recommended_tool").getD .null)
        ((dictGet kvs "candidates").getD (.arr [])) = true) :
    (tool_executor_node execTool s).current_task_idx = some (s.current_task_idx + 1) ∧
    (tool_executor_node execTool s).tool_call_count = some 0 ∧
    (tool_executor_node execTool s).tool_recommendations = none ∧
    (applyUpdate s (tool_executor_node execTool s)).tool_recommendations =
      s.tool_recommendations := by
  have hcomplete := observationUpdate_completes s.retrieved_docs obs kvs hobs hrec hsf hsafe
  rw [hname] at hexec
  unfold tool_executor_node
  simp only [hres, hname, hexec, eq_self_iff_true, true_or, if_true, hcomplete]
  exact ⟨trivial, trivial, trivial, rfl⟩

/-- Witness for C10 (amended) at a concrete format-safe observation. -/
theorem c10_executor_completes_witness :
    (tool_executor_node
        (fun _ _ => .ok "\x7b\"recommended_tool\": \x7b\"name\": \"ToolA\"\x7d, \"should_fallback\": false\x7d")
        { sub_tasks := [.str "t1"], tool_result := some ⟨"c1", "retrieve_docs", .obj []⟩,
          tool_call_count := 2 }).current_task_idx = some 1 ∧
    (tool_executor_node
        (fun _ _ => .ok "\x7b\"recommended_tool\": \x7b\"name\": \"ToolA\"\x7d, \"should_fallback\": false\x7d")
        { sub_tasks := [.str "t1"], tool_result := some ⟨"c1", "retrieve_docs", .obj []⟩,
          tool_call_count := 2 }).tool_call_count = some 0 ∧
    (tool_executor_node
        (fun _ _ => .ok "\x7b\"recommended_tool\": \x7b\"name\": \"ToolA\"\x7d, \"should_fallback\": false\x7d")
        { sub_tasks := [.str "t1"], tool_result := some ⟨"c1", "retrieve_docs", .obj []⟩,
          tool_call_count := 2 }).tool_recommendations = none := by
  have h :=
    c10_executor_completes_without_recommendation
      { sub_tasks := [.str "t1"], tool_result := some ⟨"c1", "retrieve_docs", .obj []⟩,
        tool_call_count := 2 }
      (fun _ _ => .ok "\x7b\"recommended_tool\": \x7b\"name\": \"ToolA\"\x7d, \"should_fallback\": false\x7d")
      ⟨"c1", "retrieve_docs", .obj []⟩
      "\x7b\"recommended_tool\": \x7b\"name\": \"ToolA\"\x7d, \"should_fallback\": false\x7d"
      [("recommended_tool", .obj [("name", .str "ToolA")]), ("should_fallback", .bool false)]
      rfl rfl rfl (by decide) (by decide) (by decide) (Or.inr (by decide))
  exact ⟨h.1, h.2.1, h.2.2.1⟩

/-- Membership is preserved by first-occurrence deduplication. -/
theorem mem_dedupFO (a : JVal) (l : List JVal) : a ∈ dedupFO l ↔ a ∈ l := by
  induction l with
  | nil => simp [dedupFO]
  | cons x xs ih =>
    simp only [dedupFO, List.mem_cons, List.mem_filter, ih]
    by_cases hax : a = x
    · simp [hax]
    · simp [hax]

/-- Deduplicating an append filters the right part through the left. -/
theorem dedupFO_cons (x : JVal) (l : List JVal) :
    dedupFO (x :: l) = x :: (dedupFO l).filter (fun y => decide (y ≠ x)) := rfl

theorem dedupFO_append (l₁ l₂ : List JVal) :
    dedupFO (l₁ ++ l₂) =
      dedupFO l₁ ++ (dedupFO l₂).filter (fun y => decide (y ∉ l₁)) := by
  induction l₁ with
  | nil => simp [dedupFO]
  | cons x l₁ ih =>
    rw [List.cons_append, dedupFO_cons, ih, List.filter_append, dedupFO_cons, List.cons_append]
    congr 1
    rw [List.filter_filter]
    congr 1
    apply List.filter_congr
    intro a _
    by_cases h1 : a = x <;> by_cases h2 : a ∈ l₁ <;> simp [h1, h2]

/-- Appending elements already present does not change the deduplication. -/
theorem dedupFO_append_of_subset (l₁ l₂ : List JVal) (h : ∀ a ∈ l₂, a ∈ l₁) :
    dedupFO (l₁ ++ l₂) = dedupFO l₁ := by
  rw [dedupFO_append]
  have hnil : (dedupFO l₂).filter (fun y => decide (y ∉ l₁)) = [] := by
    rw [List.filter_eq_nil_iff]
    intro a ha
    have : a ∈ l₂ := (mem_dedupFO a l₂).mp ha
    simp [h a this]
  rw [hnil, List.append_nil]

/-- The result of `dedupFO` has no duplicates. -/
theorem dedupFO_nodup (l : List JVal) : (dedupFO l).Nodup := by
  induction l with
  | nil => simp [dedupFO]
  | cons x xs ih =>
    simp only [dedupFO]
    refine List.Nodup.cons ?_ (ih.filter _)
    intro hx
    have := List.of_mem_filter hx
    simp at this

/-- Deduplication fixes lists without duplicates. -/
theorem dedupFO_eq_self_of_nodup (l : List JVal) (h : l.Nodup) : dedupFO l = l := by
  induction l with
  | nil => rfl
  | cons x xs ih =>
    simp only [dedupFO]
    rw [ih h.of_cons]
    congr 1
    rw [List.filter_eq_self]
    intro a ha
    have : a ≠ x := by
      intro hax
      exact (List.nodup_cons.mp h).1 (hax ▸ ha)
    simp [this]

/-- `dedupFO` is idempotent. -/
theorem dedupFO_idem (l : List JVal) : dedupFO (dedupFO l) = dedupFO l :=
  dedupFO_eq_self_of_nodup _ (dedupFO_nodup l)

/-- Looking up the key just set. -/
theorem dictGet_dictSet_self {α : Type} (m : List (String × α)) (k : String) (v : α) :
    dictGet (dictSet m k v) k = some v := by
  induction m with
  | nil => simp [dictGet, dictSet]
  | cons kv rest ih =>
    obtain ⟨k', v'⟩ := kv
    by_cases h : k' = k
    · simp [dictGet, dictSet, h]
    · simp only [dictSet, if_neg h]
      simpa [dictGet, List.find?, h] using ih

/-- Looking up a different key after a set. -/
theorem dictGet_dictSet_ne {α : Type} (m : List (String × α)) (k k' : String) (v : α)
    (h : k' ≠ k) : dictGet (dictSet m k v) k' = dictGet m k' := by
  induction m with
  | nil => simp [dictGet, dictSet, List.find?, Ne.symm h]
  | cons kv rest ih =>
    obtain ⟨k1, v1⟩ := kv
    by_cases h1 : k1 = k
    · subst h1
      simp [dictGet, dictSet, List.find?, Ne.symm h]
    · simp only [dictSet, if_neg h1]
      by_cases h2 : k1 = k'
      · simp [dictGet, List.find?, h2]
      · simpa [dictGet, List.find?, h2] using ih

/-- Setting a key to the value it already holds is the identity. -/
theorem dictSet_eq_of_get {α : Type} (m : List (String × α)) (k : String) (v : α)
    (h : dictGet m k = some v) : dictSet m k v = m := by
  induction m with
  | nil => simp [dictGet] at h
  | cons kv rest ih =>
    obtain ⟨k1, v1⟩ := kv
    by_cases h1 : k1 = k
    · subst h1
      have hv : v1 = v := by
        simpa [dictGet, List.find?] using h
      simp [dictSet, hv]
    · simp only [dictSet, if_neg h1]
      have h' : dictGet rest k = some v := by
        simpa [dictGet, List.find?, h1] using h
      rw [ih h']

/-- `mergeStep` when both the new value and the stored value are lists. -/
theorem mergeStep_arr_arr (m : List (String × JVal)) (k : String) (xs u : List JVal)
    (hg : dictGet m k = some (.arr u)) :
    mergeStep m (k, .arr xs) = dictSet m k (.arr (dedupFO (u ++ xs))) := by
  unfold mergeStep
  rw [hg]

/-- `mergeStep` for a list value when the stored value is not a list. -/
theorem mergeStep_arr_notarr (m : List (String × JVal)) (k : String) (xs : List JVal)
    (hg : ∀ u, dictGet m k ≠ some (.arr u)) :
    mergeStep m (k, .arr xs) =
      if pyTruthy (.arr xs) then dictSet m k (.arr xs) else m := by
  unfold mergeStep
  cases hgv : dictGet m k with
  | none => rfl
  | some w =>
    cases w with
    | arr u => exact absurd hgv (hg u)
    | null => rfl
    | bool b => rfl
    | num q => rfl
    | str s => rfl
    | obj kvs => rfl

/-- `mergeStep` for a non-list value. -/
theorem mergeStep_nonarr (m : List (String × JVal)) (k : String) (v : JVal)
    (hv : ∀ xs, v ≠ .arr xs) :
    mergeStep m (k, v) = if pyTruthy v then dictSet m k v else m := by
  unfold mergeStep
  cases v with
  | arr xs => exact absurd rfl (hv xs)
  | null => rfl
  | bool b => rfl
  | num q => rfl
  | str s => rfl
  | obj kvs => rfl

/-- `mergeProfile` over an empty delta. -/
theorem mergeProfile_nil (p : List (String × JVal)) : mergeProfile p [] = p := rfl

/-- `mergeProfile` unfolds one delta entry at a time. -/
theorem mergeProfile_cons (p : List (String × JVal)) (kv : String × JVal)
    (d : List (String × JVal)) :
    mergeProfile p (kv :: d) = mergeProfile (mergeStep p kv) d := rfl

/-- A merge step does not disturb other keys. -/
theorem mergeStep_get_ne (m : List (String × JVal)) (kv : String × JVal) (k' : String)
    (h : k' ≠ kv.1) : dictGet (mergeStep m kv) k' = dictGet m k' := by
  obtain ⟨k, v⟩ := kv
  have hset : ∀ w, dictGet (dictSet m k w) k' = dictGet m k' := fun w =>
    dictGet_dictSet_ne m k k' w h
  unfold mergeStep
  cases hgv : dictGet m k with
  | none =>
    cases v <;> dsimp only <;>
      (split
       · exact hset _
       · rfl)
  | some w =>
    cases v <;> cases w <;> dsimp only <;>
      first
      | (split
         · exact hset _
         · rfl)
      | exact hset _

/-- Merging a delta that avoids key `k'` does not disturb `k'`. -/
theorem mergeProfile_get_not_mem (m : List (String × JVal)) (d : List (String × JVal))
    (k' : String) (h : ∀ kv ∈ d, kv.1 ≠ k') :
    dictGet (mergeProfile m d) k' = dictGet m k' := by
  induction d generalizing m with
  | nil => rfl
  | cons kv rest ih =>
    rw [mergeProfile_cons]
    rw [ih (mergeStep m kv) (fun kv' h' => h kv' (List.mem_cons_of_mem _ h'))]
    exact mergeStep_get_ne m kv k' (Ne.symm (h kv (List.mem_cons_self _ _)))

/-- Re-applying one merge step to a state whose entry at that key is the
one the first application produced is the identity (given the duplicate /
missing-key side condition). -/
theorem mergeStep_second (p M1 : List (String × JVal)) (k : String) (v : JVal)
    (hM : dictGet M1 k = dictGet (mergeStep p (k, v)) k)
    (hyp : ∀ xs, v = .arr xs → (∃ old, dictGet p k = some (.arr old)) ∨ xs.Nodup) :
    mergeStep M1 (k, v) = M1 := by
  by_cases hvarr : ∃ xs, v = .arr xs
  · obtain ⟨xs, rfl⟩ := hvarr
    by_cases hparr : ∃ old, dictGet p k = some (.arr old)
    · obtain ⟨old, hold⟩ := hparr
      rw [mergeStep_arr_arr p k xs old hold, dictGet_dictSet_self] at hM
      rw [mergeStep_arr_arr M1 k xs _ hM]
      have hfix : dedupFO (dedupFO (old ++ xs) ++ xs) = dedupFO (old ++ xs) := by
        rw [dedupFO_append_of_subset]
        · exact dedupFO_idem _
        · intro a ha
          rw [mem_dedupFO]
          exact List.mem_append_right old ha
      rw [hfix]
      exact dictSet_eq_of_get M1 k _ hM
    · push_neg at hparr
      have hnd : xs.Nodup := by
        rcases hyp xs rfl with ⟨old, hold⟩ | hh
        · exact absurd hold (hparr old)
        · exact hh
      rw [mergeStep_arr_notarr p k xs hparr] at hM
      by_cases ht : pyTruthy (.arr xs) = true
      · rw [if_pos ht, dictGet_dictSet_self] at hM
        rw [mergeStep_arr_arr M1 k xs xs hM]
        have hfix : dedupFO (xs ++ xs) = xs := by
          rw [dedupFO_append_of_subset xs xs (fun a ha => ha)]
          exact dedupFO_eq_self_of_nodup xs hnd
        rw [hfix]
        exact dictSet_eq_of_get M1 k _ hM
      · rw [if_neg ht] at hM
        have hM1 : ∀ u, dictGet M1 k ≠ some (.arr u) := fun u hu =>
          hparr u (hM.symm.trans hu)
        rw [mergeStep_arr_notarr M1 k xs hM1, if_neg ht]
  · push_neg at hvarr
    rw [mergeStep_nonarr p k v hvarr] at hM
    by_cases ht : pyTruthy v = true
    · rw [if_pos ht, dictGet_dictSet_self] at hM
      rw [mergeStep_nonarr M1 k v hvarr, if_pos ht]
      exact dictSet_eq_of_get M1 k v hM
    · rw [if_neg ht] at hM
      rw [mergeStep_nonarr M1 k v hvarr, if_neg ht]

/-- C9 counterexample: the merge is **not** idempotent for every profile and
delta.  With a profile lacking the key and a delta list containing a
duplicate, the first application stores the list verbatim and the second
deduplicates it, changing the stored JSON. -/
theorem c9_counterexample_duplicate_in_delta :
    mergeProfile
        (mergeProfile [("skill_level", .str "초급")]
          [("interests", .arr [.str "영상", .str "영상"])])
        [("interests", .arr [.str "영상", .str "영상"])] ≠
      mergeProfile [("skill_level", .str "초급")]
        [("interests", .arr [.str "영상", .str "영상"])] := by
  decide

/-- C9 (amended): the reflection profile merge is idempotent provided every
list-valued field of the delta either already has a list value in the
profile or contains no duplicate elements (the counterexample shows the
duplicate/missing-key case genuinely fails; list-valued unions are compared
in the canonical first-occurrence order standing in for CPython's
unspecified set order).  The delta's keys are distinct, as they come from a
parsed JSON object. -/
theorem c9_merge_idempotent (p d : List (String × JVal))
    (hnodup : (d.map Prod.fst).Nodup)
    (hlists : ∀ kv ∈ d, ∀ xs, kv.2 = .arr xs →
      (∃ old, dictGet p kv.1 = some (.arr old)) ∨ xs.Nodup) :
    mergeProfile (mergeProfile p d) d = mergeProfile p d := by
  induction d generalizing p with
  | nil => rfl
  | cons kv rest ih =>
    obtain ⟨k, v⟩ := kv
    have hcons : (k :: rest.map Prod.fst).Nodup := by simpa using hnodup
    have hknotin : ∀ kv' ∈ rest, kv'.1 ≠ k := by
      intro kv' hkv' he
      exact (List.nodup_cons.mp hcons).1 (he ▸ List.mem_map_of_mem Prod.fst hkv')
    rw [mergeProfile_cons, mergeProfile_cons]
    have hM : dictGet (mergeProfile (mergeStep p (k, v)) rest) k =
        dictGet (mergeStep p (k, v)) k :=
      mergeProfile_get_not_mem (mergeStep p (k, v)) rest k hknotin
    rw [mergeStep_second p (mergeProfile (mergeStep p (k, v)) rest) k v hM
      (fun xs hxs => hlists (k, v) (List.mem_cons_self _ _) xs hxs)]
    exact ih (mergeStep p (k, v)) (List.nodup_cons.mp hcons).2
      (fun kv' hkv' xs hxs => by
        rcases hlists kv' (List.mem_cons_of_mem _ hkv') xs hxs with ⟨old, hold⟩ | hnd
        · exact Or.inl ⟨old, by
            rw [mergeStep_get_ne p (k, v) kv'.1 (hknotin kv' hkv')]
            exact hold⟩
        · exact Or.inr hnd)

/-- Witness for C9 (amended) at a concrete profile and duplicate-free delta. -/
theorem c9_merge_idempotent_witness :
    mergeProfile
        (mergeProfile [("skill_level", .str "초급"), ("interests", .arr [.str "영상"])]
          [("interests", .arr [.str "영상", .str "더빙"]), ("price_preference", .str "무료")])
        [("interests", .arr [.str "영상", .str "더빙"]), ("price_preference", .str "무료")] =
      mergeProfile [("skill_level", .str "초급"), ("interests", .arr [.str "영상"])]
        [("interests", .arr [.str "영상", .str "더빙"]), ("price_preference", .str "무료")] := by
  apply c9_merge_idempotent
  · decide
  · intro kv hkv xs hxs
    simp only [List.mem_cons, List.mem_singleton] at hkv
    rcases hkv with rfl | rfl | h
    · injection hxs with he
      subst he
      exact Or.inr (by decide)
    · exact JVal.noConfusion hxs
    · exact absurd h (List.not_mem_nil kv)

/-- The statistics fold computes the spec-side sum, count and low-score
count over the evaluated (nonempty-candidate) tasks. -/
theorem retryStats_eq (er : List (String × List Candidate)) :
    retryStats er = (sumTopScores er, (evaluatedTasks er).length, lowScoreCount er) := by
  suffices h : ∀ (a : ℚ) (b c : Nat),
      er.foldl retryStep (a, b, c) =
        (a + sumTopScores er, b + (evaluatedTasks er).length, c + lowScoreCount er) by
    simpa [retryStats] using h 0 0 0
  induction er with
  | nil =>
    intro a b c
    simp [sumTopScores, evaluatedTasks, lowScoreCount]
  | cons p rest ih =>
    intro a b c
    cases hp : p.2 with
    | nil =>
      have hstep : retryStep (a, b, c) p = (a, b, c) := by
        unfold retryStep
        rw [hp]
      rw [List.foldl_cons, hstep, ih]
      have hfilter : evaluatedTasks (p :: rest) = evaluatedTasks rest := by
        simp [evaluatedTasks, List.filter_cons, hp]
      have hsum : sumTopScores (p :: rest) = sumTopScores rest := by
        simp [sumTopScores, hfilter]
      have hlow : lowScoreCount (p :: rest) = lowScoreCount rest := by
        simp [lowScoreCount, hfilter]
      rw [hfilter, hsum, hlow]
    | cons top t =>
      have hstep : retryStep (a, b, c) p =
          (a + topScore top, b + 1, c + (if topScore top < 3 / 5 then 1 else 0)) := by
        unfold retryStep
        rw [hp]
      rw [List.foldl_cons, hstep, ih]
      have hfilter : evaluatedTasks (p :: rest) = p :: evaluatedTasks rest := by
        simp [evaluatedTasks, List.filter_cons, hp]
      have hsum : sumTopScores (p :: rest) = topScore top + sumTopScores rest := by
        simp only [sumTopScores, hfilter, List.foldr_cons, hp]
      have hlow : lowScoreCount (p :: rest) =
          (if topScore top < 3 / 5 then 1 else 0) + lowScoreCount rest := by
        simp only [lowScoreCount, hfilter, List.countP_cons, hp]
        by_cases hlt : topScore top < 3 / 5
        · simp [hlt, Nat.add_comm]
        · simp [hlt, Nat.add_comm]
      rw [hfilter, hsum, hlow]
      simp only [Prod.mk.injEq, List.length_cons]
      refine ⟨by ring, by omega, Nat.add_assoc c _ _⟩

/-- C4: `should_retry` answers `"retry"` exactly when the retry counter is
below the hard cap `MAX_RETRIES = 2`, the evaluation results are non-empty
(at least one sub-task has a top candidate), the mean top-candidate final
score is below `0.65`, and at least half of those sub-tasks have a top
final score below `0.6`; in particular, with scores `0.65, 0.45, 0.45,
0.45` (mean `0.5`, 3 of 4 below `0.6`) it retries at `retry_count = 0` and
continues at `retry_count = 2`. -/
theorem c4_retry_policy :
    (∀ (rc : Nat) (er : List (String × List Candidate)),
      should_retry rc er = "retry" ↔
        rc < MAX_RETRIES ∧ evaluatedTasks er ≠ [] ∧
        sumTopScores er / ((evaluatedTasks er).length : ℚ) < 13 / 20 ∧
        (evaluatedTasks er).length ≤ 2 * lowScoreCount er) ∧
    should_retry 0
      [("t1", [⟨some (13 / 20)⟩]), ("t2", [⟨some (9 / 20)⟩]),
       ("t3", [⟨some (9 / 20)⟩]), ("t4", [⟨some (9 / 20)⟩])] = "retry" ∧
    should_retry 2
      [("t1", [⟨some (13 / 20)⟩]), ("t2", [⟨some (9 / 20)⟩]),
       ("t3", [⟨some (9 / 20)⟩]), ("t4", [⟨some (9 / 20)⟩])] = "continue" := by
  refine ⟨?_, ?_, ?_⟩
  case refine_2 =>
    simp only [should_retry, MAX_RETRIES, retryStats, retryStep, topScore, List.foldl,
      Option.getD]
    norm_num
  case refine_3 =>
    simp only [should_retry, MAX_RETRIES, retryStats, retryStep, topScore, List.foldl,
      Option.getD]
    norm_num
  intro rc er
  unfold should_retry
  by_cases hrc : rc ≥ MAX_RETRIES
  · rw [if_pos hrc]
    exact iff_of_false (by decide) (fun h => absurd h.1 (not_lt.mpr hrc))
  · rw [if_neg hrc]
    by_cases hemp : er.isEmpty
    · rw [if_pos hemp]
      have he : er = [] := List.isEmpty_iff.mp hemp
      subst he
      exact iff_of_false (by decide) (fun h => h.2.1 rfl)
    · rw [if_neg hemp]
      simp only [retryStats_eq er]
      by_cases hcnt : (evaluatedTasks er).length = 0
      · rw [if_pos hcnt]
        exact iff_of_false (by decide)
          (fun h => h.2.1 (List.length_eq_zero.mp hcnt))
      · rw [if_neg hcnt]
        have hc0 : (0 : ℚ) < ((evaluatedTasks er).length : ℚ) := by
          exact_mod_cast Nat.pos_of_ne_zero hcnt
        have hratio :
            ((lowScoreCount er : ℚ) / ((evaluatedTasks er).length : ℚ) ≥ 1 / 2) ↔
              ((evaluatedTasks er).length ≤ 2 * lowScoreCount er) := by
          rw [ge_iff_le, le_div_iff₀ hc0]
          constructor
          · intro h
            have hq : ((evaluatedTasks er).length : ℚ) ≤ 2 * (lowScoreCount er : ℚ) := by
              linarith
            exact_mod_cast hq
          · intro h
            have hq : ((evaluatedTasks er).length : ℚ) ≤ 2 * (lowScoreCount er : ℚ) := by
              exact_mod_cast h
            linarith
        split
        · next hcond =>
          exact iff_of_true rfl
            ⟨Nat.lt_of_not_le (fun hle => hrc hle), fun he => hcnt (by rw [he]; rfl),
             hcond.1, hratio.mp hcond.2⟩
        · next hcond =>
          refine iff_of_false (by decide) ?_
          rintro ⟨-, -, havg, hlow⟩
          exact hcond ⟨havg, hratio.mpr hlow⟩

/-- `recommend_tool_node` when every sub-task is done: only the pending
tool call is cleared. -/
theorem recommend_eq_done (resp : LLMResponse) (s : AgentState)
    (h : s.current_task_idx ≥ s.sub_tasks.length) :
    recommend_tool_node resp s = { tool_result := some none } := by
  unfold recommend_tool_node
  rw [if_pos h]

/-- `recommend_tool_node` at the per-task call cap: no tool call is issued;
the generic fallback is recorded, the cursor advances, the counter resets. -/
theorem recommend_eq_fallback (resp : LLMResponse) (s : AgentState)
    (h1 : s.current_task_idx < s.sub_tasks.length)
    (h2 : MAX_TOOL_CALLS_PER_TASK ≤ s.tool_call_count) :
    recommend_tool_node resp s =
      { tool_result := some none
        tool_recommendations := some (dictSet s.tool_recommendations
          (taskId s.current_task_idx) recommend_fallback_message)
        current_task_idx := some (s.current_task_idx + 1)
        tool_call_count := some 0 } := by
  unfold recommend_tool_node
  rw [if_neg (by omega), if_pos h2]

/-- `recommend_tool_node` under budget when the reasoning service requests
a tool call: the first call becomes pending and the counter increments. -/
theorem recommend_eq_call (resp : LLMResponse) (s : AgentState) (tc : ToolCall)
    (rest : List ToolCall)
    (h1 : s.current_task_idx < s.sub_tasks.length)
    (h2 : s.tool_call_count < MAX_TOOL_CALLS_PER_TASK)
    (hcalls : resp.tool_calls = tc :: rest) :
    recommend_tool_node resp s =
      { tool_result := some (some tc)
        tool_call_count := some (s.tool_call_count + 1)
        messagesAdded := 1 } := by
  unfold recommend_tool_node
  rw [if_neg (by omega), if_neg (by omega), hcalls]

/-- `recommend_tool_node` under budget when the reasoning service answers
with content: the recommendation is recorded and the task completes. -/
theorem recommend_eq_content (resp : LLMResponse) (s : AgentState)
    (h1 : s.current_task_idx < s.sub_tasks.length)
    (h2 : s.tool_call_count < MAX_TOOL_CALLS_PER_TASK)
    (hcalls : resp.tool_calls = []) :
    recommend_tool_node resp s =
      { tool_result := some none
        tool_recommendations := some (dictSet s.tool_recommendations
          (taskId s.current_task_idx) resp.content)
        current_task_idx := some (s.current_task_idx + 1)
        tool_call_count := some 0
        messagesAdded := 1 } := by
  unfold recommend_tool_node
  rw [if_neg (by omega), if_neg (by omega), hcalls]

/-- The loop invariant: in every reachable loop state the cursor is within
`[0, len(sub_tasks)]`, and a pending tool call implies the cursor is
strictly inside the plan. -/
theorem loop_invariant (s : AgentState) (h : LoopReachable s) :
    s.current_task_idx ≤ s.sub_tasks.length ∧
    (s.tool_result ≠ none → s.current_task_idx < s.sub_tasks.length) := by
  induction h with
  | entry s h0 hres =>
    rw [h0, hres]
    exact ⟨Nat.zero_le _, fun hc => absurd rfl hc⟩
  | recommend s resp hs ih =>
    obtain ⟨hle, hlt⟩ := ih
    by_cases h1 : s.current_task_idx ≥ s.sub_tasks.length
    · rw [recommend_eq_done resp s h1]
      exact ⟨hle, fun hc => absurd rfl hc⟩
    · push_neg at h1
      by_cases h2 : MAX_TOOL_CALLS_PER_TASK ≤ s.tool_call_count
      · rw [recommend_eq_fallback resp s h1 h2]
        exact ⟨Nat.succ_le_of_lt h1, fun hc => absurd rfl hc⟩
      · push_neg at h2
        cases hcalls : resp.tool_calls with
        | cons tc rest =>
          rw [recommend_eq_call resp s tc rest h1 h2 hcalls]
          exact ⟨hle, fun _ => h1⟩
        | nil =>
          rw [recommend_eq_content resp s h1 h2 hcalls]
          exact ⟨Nat.succ_le_of_lt h1, fun hc => absurd rfl hc⟩
  | exec s execTool hs ih =>
    obtain ⟨hle, hlt⟩ := ih
    cases hres : s.tool_result with
    | none =>
      have hnode : tool_executor_node execTool s = {} := by
        unfold tool_executor_node
        rw [hres]
      rw [hnode]
      exact ⟨hle, fun hc => absurd hres hc⟩
    | some tc =>
      have hidx : s.current_task_idx < s.sub_tasks.length := by
        apply hlt
        rw [hres]
        exact fun hh => Option.noConfusion hh
      cases hexec : execTool tc.name tc.args with
      | error e =>
        have hnode : tool_executor_node execTool s =
            { tool_result := some none, error := some (some e), messagesAdded := 1 } := by
          unfold tool_executor_node
          rw [hres]
          dsimp only
          rw [hexec]
        rw [hnode]
        exact ⟨hle, fun hc => absurd rfl hc⟩
      | ok obs =>
        by_cases hp : (if tc.name = "retrieve_docs" ∨ tc.name = "google_search_tool" then
            observationUpdate s.retrieved_docs obs else (s.retrieved_docs, false)).2 = true
        · have hnode : tool_executor_node execTool s =
              { tool_result := some none
                current_task_idx := some (s.current_task_idx + 1)
                tool_call_count := some 0
                retrieved_docs := some (if tc.name = "retrieve_docs" ∨
                  tc.name = "google_search_tool" then
                    observationUpdate s.retrieved_docs obs else (s.retrieved_docs, false)).1
                messagesAdded := 1 } := by
            unfold tool_executor_node
            rw [hres]
            dsimp only
            rw [hexec]
            dsimp only
            rw [if_pos hp]
          rw [hnode]
          exact ⟨Nat.succ_le_of_lt hidx, fun hcc => absurd rfl hcc⟩
        · have hnode : tool_executor_node execTool s =
              { tool_result := some none
                retrieved_docs := some (if tc.name = "retrieve_docs" ∨
                  tc.name = "google_search_tool" then
                    observationUpdate s.retrieved_docs obs else (s.retrieved_docs, false)).1
                messagesAdded := 1 } := by
            unfold tool_executor_node
            rw [hres]
            dsimp only
            rw [hexec]
            dsimp only
            rw [if_neg hp]
          rw [hnode]
          exact ⟨hle, fun hcc => absurd rfl hcc⟩

/-- `tool_executor_node` without a pending call is a no-op (`return {}`). -/
theorem executor_eq_none (execTool : String → JVal → Except String String)
    (s : AgentState) (h : s.tool_result = none) :
    tool_executor_node execTool s = {} := by
  unfold tool_executor_node
  rw [h]

/-- `tool_executor_node` when the tool raises: the error is recorded and
the pending call cleared; the cursor and counter are untouched. -/
theorem executor_eq_error (execTool : String → JVal → Except String String)
    (s : AgentState) (tc : ToolCall) (e : String)
    (h : s.tool_result = some tc) (he : execTool tc.name tc.args = .error e) :
    tool_executor_node execTool s =
      { tool_result := some none, error := some (some e), messagesAdded := 1 } := by
  unfold tool_executor_node
  rw [h]
  dsimp only
  rw [he]

/-- `tool_executor_node` on a successful observation that completes the
current sub-task. -/
theorem executor_eq_completed (execTool : String → JVal → Except String String)
    (s : AgentState) (tc : ToolCall) (obs : String)
    (h : s.tool_result = some tc) (he : execTool tc.name tc.args = .ok obs)
    (hp : (if tc.name = "retrieve_docs" ∨ tc.name = "google_search_tool" then
        observationUpdate s.retrieved_docs obs else (s.retrieved_docs, false)).2 = true) :
    tool_executor_node execTool s =
      { tool_result := some none
        current_task_idx := some (s.current_task_idx + 1)
        tool_call_count := some 0
        retrieved_docs := some (if tc.name = "retrieve_docs" ∨
          tc.name = "google_search_tool" then
            observationUpdate s.retrieved_docs obs else (s.retrieved_docs, false)).1
        messagesAdded := 1 } := by
  unfold tool_executor_node
  rw [h]
  dsimp only
  rw [he]
  dsimp only
  rw [if_pos hp]

/-- `tool_executor_node` on a successful observation that does not complete
the current sub-task. -/
theorem executor_eq_continue (execTool : String → JVal → Except String String)
    (s : AgentState) (tc : ToolCall) (obs : String)
    (h : s.tool_result = some tc) (he : execTool tc.name tc.args = .ok obs)
    (hp : ¬ (if tc.name = "retrieve_docs" ∨ tc.name = "google_search_tool" then
        observationUpdate s.retrieved_docs obs else (s.retrieved_docs, false)).2 = true) :
    tool_executor_node execTool s =
      { tool_result := some none
        retrieved_docs := some (if tc.name = "retrieve_docs" ∨
          tc.name = "google_search_tool" then
            observationUpdate s.retrieved_docs obs else (s.retrieved_docs, false)).1
        messagesAdded := 1 } := by
  unfold tool_executor_node
  rw [h]
  dsimp only
  rw [he]
  dsimp only
  rw [if_neg hp]

/-- C2: for every reachable loop state, `current_task_idx` stays within
`[0, len(sub_tasks)]`; `recommend_tool_node` and `tool_executor_node` move
the cursor only when `current_task_idx < len(sub_tasks)`; and
`route_after_recommend` routes to `guide_generation_node` (synthesis)
exactly when no tool call is pending and the cursor has reached
`len(sub_tasks)` — never before. -/
theorem c2_cursor_in_range (s : AgentState) (h : LoopReachable s) :
    s.current_task_idx ≤ s.sub_tasks.length ∧
    (∀ resp : LLMResponse,
      (applyUpdate s (recommend_tool_node resp s)).current_task_idx ≠ s.current_task_idx →
        s.current_task_idx < s.sub_tasks.length) ∧
    (∀ execTool : String → JVal → Except String String,
      (applyUpdate s (tool_executor_node execTool s)).current_task_idx ≠ s.current_task_idx →
        s.current_task_idx < s.sub_tasks.length) ∧
    (route_after_recommend s = "guide_generation_node" ↔
      s.tool_result = none ∧ s.current_task_idx = s.sub_tasks.length) := by
  obtain ⟨hle, hlt⟩ := loop_invariant s h
  refine ⟨hle, ?_, ?_, ?_⟩
  · intro resp hne
    by_contra hgt
    push_neg at hgt
    rw [recommend_eq_done resp s hgt] at hne
    exact hne rfl
  · intro execTool hne
    cases hres : s.tool_result with
    | none =>
      rw [executor_eq_none execTool s hres] at hne
      exact absurd rfl hne
    | some tc =>
      apply hlt
      rw [hres]
      exact fun hh => Option.noConfusion hh
  · unfold route_after_recommend
    cases hres : s.tool_result with
    | some tc =>
      dsimp only
      constructor
      · intro hr
        exact absurd hr (by decide)
      · rintro ⟨hnone, -⟩
        exact Option.noConfusion hnone
    | none =>
      dsimp only
      by_cases hidx : s.current_task_idx < s.sub_tasks.length
      · rw [if_pos hidx]
        constructor
        · intro hr
          exact absurd hr (by decide)
        · rintro ⟨-, hlen⟩
          omega
      · rw [if_neg hidx]
        exact iff_of_true rfl ⟨rfl, by omega⟩

/-- Witness for C2 at a concrete loop-entry state. -/
theorem c2_cursor_in_range_witness :
    ({ sub_tasks := [.str "영상 편집"] } : AgentState).current_task_idx ≤
      ({ sub_tasks := [.str "영상 편집"] } : AgentState).sub_tasks.length ∧
    (route_after_recommend { sub_tasks := [.str "영상 편집"] } = "guide_generation_node" ↔
      ({ sub_tasks := [.str "영상 편집"] } : AgentState).tool_result = none ∧
      ({ sub_tasks := [.str "영상 편집"] } : AgentState).current_task_idx =
        ({ sub_tasks := [.str "영상 편집"] } : AgentState).sub_tasks.length) := by
  have h := c2_cursor_in_range { sub_tasks := [.str "영상 편집"] }
    (LoopReachable.entry _ rfl rfl)
  exact ⟨h.1, h.2.2.2⟩

/-- A round issues either no tool call or exactly one. -/
theorem roundCalls_cases (resp : LLMResponse) (s : AgentState) :
    roundCalls resp s = 0 ∨ roundCalls resp s = 1 := by
  unfold roundCalls
  cases htr : (recommend_tool_node resp s).tool_result with
  | none => exact Or.inl rfl
  | some o =>
    cases o with
    | none => exact Or.inl rfl
    | some tc => exact Or.inr rfl

/-- One round of the loop: the plan is untouched, no tool call is left
pending, the cursor never moves backwards, and — when the round leaves the
cursor in place — the counter grows by exactly the number of issued calls,
each of which required the counter to be under the cap. -/
theorem roundStep_props (resp : LLMResponse)
    (execTool : String → JVal → Except String String) (s : AgentState) :
    (roundStep resp execTool s).sub_tasks = s.sub_tasks ∧
    (roundStep resp execTool s).tool_result = none ∧
    s.current_task_idx ≤ (roundStep resp execTool s).current_task_idx ∧
    ((roundStep resp execTool s).current_task_idx = s.current_task_idx →
      (roundStep resp execTool s).tool_call_count =
        s.tool_call_count + roundCalls resp s ∧
      (roundCalls resp s = 1 → s.tool_call_count < MAX_TOOL_CALLS_PER_TASK)) := by
  by_cases h1 : s.current_task_idx ≥ s.sub_tasks.length
  · have hrec := recommend_eq_done resp s h1
    have hcalls : roundCalls resp s = 0 := by
      unfold roundCalls
      rw [hrec]
    have hstep : roundStep resp execTool s = applyUpdate s { tool_result := some none } := by
      unfold roundStep
      rw [hrec]
      rfl
    rw [hstep, hcalls]
    refine ⟨rfl, rfl, Nat.le_refl _, fun _ => ⟨?_, fun hh => by omega⟩⟩
    show s.tool_call_count = s.tool_call_count + 0
    omega
  · push_neg at h1
    by_cases h2 : MAX_TOOL_CALLS_PER_TASK ≤ s.tool_call_count
    · have hrec := recommend_eq_fallback resp s h1 h2
      have hcalls : roundCalls resp s = 0 := by
        unfold roundCalls
        rw [hrec]
      have hstep : roundStep resp execTool s =
          applyUpdate s
            { tool_result := some none
              tool_recommendations := some (dictSet s.tool_recommendations
                (taskId s.current_task_idx) recommend_fallback_message)
              current_task_idx := some (s.current_task_idx + 1)
              tool_call_count := some 0 } := by
        unfold roundStep
        rw [hrec]
        rfl
      rw [hstep, hcalls]
      refine ⟨rfl, rfl, ?_, fun hh => ?_⟩
      · show s.current_task_idx ≤ s.current_task_idx + 1
        omega
      · exfalso
        have hh' : s.current_task_idx + 1 = s.current_task_idx := hh
        omega
    · push_neg at h2
      cases hcl : resp.tool_calls with
      | nil =>
        have hrec := recommend_eq_content resp s h1 h2 hcl
        have hcalls : roundCalls resp s = 0 := by
          unfold roundCalls
          rw [hrec]
        have hstep : roundStep resp execTool s =
            applyUpdate s
              { tool_result := some none
                tool_recommendations := some (dictSet s.tool_recommendations
                  (taskId s.current_task_idx) resp.content)
                current_task_idx := some (s.current_task_idx + 1)
                tool_call_count := some 0
                messagesAdded := 1 } := by
          unfold roundStep
          rw [hrec]
          rfl
        rw [hstep, hcalls]
        refine ⟨rfl, rfl, ?_, fun hh => ?_⟩
        · show s.current_task_idx ≤ s.current_task_idx + 1
          omega
        · exfalso
          have hh' : s.current_task_idx + 1 = s.current_task_idx := hh
          omega
      | cons tc rest =>
        have hrec := recommend_eq_call resp s tc rest h1 h2 hcl
        have hcalls : roundCalls resp s = 1 := by
          unfold roundCalls
          rw [hrec]
        have hstep : roundStep resp execTool s =
            applyUpdate
              (applyUpdate s
                { tool_result := some (some tc)
                  tool_call_count := some (s.tool_call_count + 1)
                  messagesAdded := 1 })
              (tool_executor_node execTool
                (applyUpdate s
                  { tool_result := some (some tc)
                    tool_call_count := some (s.tool_call_count + 1)
                    messagesAdded := 1 })) := by
          unfold roundStep
          rw [hrec]
          rfl
        rw [hstep, hcalls]
        cases hexec : execTool tc.name tc.args with
        | error e =>
          rw [executor_eq_error execTool _ tc e rfl hexec]
          exact ⟨rfl, rfl, Nat.le_refl _, fun _ => ⟨rfl, fun _ => h2⟩⟩
        | ok obs =>
          by_cases hp : (if tc.name = "retrieve_docs" ∨ tc.name = "google_search_tool" then
              observationUpdate (applyUpdate s
                { tool_result := some (some tc)
                  tool_call_count := some (s.tool_call_count + 1)
                  messagesAdded := 1 }).retrieved_docs obs
              else ((applyUpdate s
                { tool_result := some (some tc)
                  tool_call_count := some (s.tool_call_count + 1)
                  messagesAdded := 1 }).retrieved_docs, false)).2 = true
          · rw [executor_eq_completed execTool _ tc obs rfl hexec hp]
            refine ⟨rfl, rfl, ?_, fun hh => ?_⟩
            · show s.current_task_idx ≤ s.current_task_idx + 1
              omega
            · exfalso
              have hh' : s.current_task_idx + 1 = s.current_task_idx := hh
              omega
          · rw [executor_eq_continue execTool _ tc obs rfl hexec hp]
            exact ⟨rfl, rfl, Nat.le_refl _, fun _ => ⟨rfl, fun _ => h2⟩⟩

/-- The cursor never moves backwards over any number of rounds. -/
theorem runRounds_idx_mono (execTool : String → JVal → Except String String) :
    ∀ (n : Nat) (resps : Nat → LLMResponse) (s : AgentState),
      s.current_task_idx ≤ (runRounds resps execTool n s).current_task_idx := by
  intro n
  induction n with
  | zero => intro resps s; exact Nat.le_refl _
  | succ n ih =>
    intro resps s
    exact Nat.le_trans (roundStep_props (resps 0) execTool s).2.2.1
      (ih (fun i => resps (i + 1)) (roundStep (resps 0) execTool s))

/-- While a sub-task is still the current one, the counter equals its
initial value plus the calls issued so far, and the issued calls never push
it past the cap. -/
theorem callsCount_bound (execTool : String → JVal → Except String String) :
    ∀ (n : Nat) (resps : Nat → LLMResponse) (s : AgentState),
      (runRounds resps execTool n s).current_task_idx = s.current_task_idx →
      (runRounds resps execTool n s).tool_call_count =
        s.tool_call_count + callsCount resps execTool n s ∧
      (callsCount resps execTool n s = 0 ∨
        s.tool_call_count + callsCount resps execTool n s ≤ MAX_TOOL_CALLS_PER_TASK) := by
  intro n
  induction n with
  | zero =>
    intro resps s hidx
    refine ⟨?_, Or.inl rfl⟩
    show s.tool_call_count = s.tool_call_count + 0
    omega
  | succ n ih =>
    intro resps s hidx
    obtain ⟨hsub, hnone', hmono1, hcond⟩ := roundStep_props (resps 0) execTool s
    have hmono2 := runRounds_idx_mono execTool n (fun i => resps (i + 1))
      (roundStep (resps 0) execTool s)
    have hidx' : (runRounds (fun i => resps (i + 1)) execTool n
        (roundStep (resps 0) execTool s)).current_task_idx = s.current_task_idx := hidx
    have hidx1 : (roundStep (resps 0) execTool s).current_task_idx = s.current_task_idx := by
      omega
    obtain ⟨hcnt, himp⟩ := hcond hidx1
    have hidx2 : (runRounds (fun i => resps (i + 1)) execTool n
        (roundStep (resps 0) execTool s)).current_task_idx =
        (roundStep (resps 0) execTool s).current_task_idx := by
      omega
    obtain ⟨ih1, ih2⟩ := ih (fun i => resps (i + 1)) (roundStep (resps 0) execTool s) hidx2
    have hccn : callsCount resps execTool (n + 1) s =
        roundCalls (resps 0) s +
          callsCount (fun i => resps (i + 1)) execTool n (roundStep (resps 0) execTool s) := rfl
    have hrun : runRounds resps execTool (n + 1) s =
        runRounds (fun i => resps (i + 1)) execTool n (roundStep (resps 0) execTool s) := rfl
    rw [hccn, hrun]
    constructor
    · rw [ih1, hcnt]
      omega
    · rcases roundCalls_cases (resps 0) s with hrc | hrc
      · rcases ih2 with hz | hb
        · exact Or.inl (by omega)
        · refine Or.inr ?_
          rw [hcnt] at hb
          omega
      · have hlt := himp hrc
        rcases ih2 with hz | hb
        · refine Or.inr ?_
          rw [hrc, hz]
          omega
        · refine Or.inr ?_
          rw [hcnt, hrc] at hb
          rw [hrc]
          omega

/-- C1: once `tool_call_count` reaches `MAX_TOOL_CALLS_PER_TASK` (3) with a
sub-task still pending, `recommend_tool_node` issues no tool call — it
records the generic fallback message for the current sub-task, advances
`current_task_idx`, and resets the counter (first conjunct, an exact
description of the returned update).  Consequently, starting a sub-task
with a zero counter, as long as that sub-task has not completed, at most 3
tool calls are issued — against arbitrary reasoning-service behaviour,
including one that requests a tool call on every invocation (second
conjunct). -/
theorem c1_tool_call_budget :
    (∀ (resp : LLMResponse) (s : AgentState),
      s.current_task_idx < s.sub_tasks.length →
      MAX_TOOL_CALLS_PER_TASK ≤ s.tool_call_count →
      recommend_tool_node resp s =
        { tool_result := some none
          tool_recommendations := some (dictSet s.tool_recommendations
            (taskId s.current_task_idx) recommend_fallback_message)
          current_task_idx := some (s.current_task_idx + 1)
          tool_call_count := some 0 }) ∧
    (∀ (resps : Nat → LLMResponse) (execTool : String → JVal → Except String String)
      (n : Nat) (s : AgentState),
      s.tool_call_count = 0 →
      (runRounds resps execTool n s).current_task_idx = s.current_task_idx →
      callsCount resps execTool n s ≤ MAX_TOOL_CALLS_PER_TASK) := by
  constructor
  · intro resp s h1 h2
    exact recommend_eq_fallback resp s h1 h2
  · intro resps execTool n s h0 hidx
    obtain ⟨-, hb⟩ := callsCount_bound execTool n resps s hidx
    rcases hb with hz | hb
    · rw [hz]
      decide
    · rw [h0] at hb
      omega

/-- Witness for C1: a state at the cap receives the fallback update, and
three loop rounds against a reasoning service that always requests a tool
call (with a tool that never completes the task) issue exactly 3 ≤ 3
calls. -/
theorem c1_tool_call_budget_witness :
    recommend_tool_node ⟨"", [⟨"id0", "calculate_math", .obj []⟩]⟩
        { sub_tasks := [.str "시나리오", .str "영상"], tool_call_count := 3 } =
      { tool_result := some none
        tool_recommendations := some (dictSet []
          (taskId 0) recommend_fallback_message)
        current_task_idx := some 1
        tool_call_count := some 0 } ∧
    callsCount (fun _ => ⟨"", [⟨"id0", "calculate_math", .obj []⟩]⟩)
        (fun _ _ => .ok "계산 완료") 3 { sub_tasks := [.str "시나리오"] } ≤
      MAX_TOOL_CALLS_PER_TASK :=
  ⟨c1_tool_call_budget.1 ⟨"", [⟨"id0", "calculate_math", .obj []⟩]⟩
      { sub_tasks := [.str "시나리오", .str "영상"], tool_call_count := 3 }
      (by decide) (by decide),
   c1_tool_call_budget.2 (fun _ => ⟨"", [⟨"id0", "calculate_math", .obj []⟩]⟩)
      (fun _ _ => .ok "계산 완료") 3 { sub_tasks := [.str "시나리오"] } rfl (by decide)⟩
